import Mathlib

/-!
Verification of the Prediction Query & Aggregation Engine of the
sports-predictor web application.

The engine is the `GET` handler of the prediction API route: it holds a
snapshot of prediction records (`mockPredictions`), and for the
`predictions` endpoint applies optional filters, sorts by a requested
key/direction, and paginates; for the `summary` endpoint it computes
breakdowns and a featured top-3 subset over the full snapshot.

Modelling conventions of this shallow embedding:
* JavaScript numbers that appear in the data are exact decimals with at
  most one fractional digit (`line`, `predictedValue`) or two
  (`overProbability`).  They are stored as integers scaled by 10
  (resp. 100), e.g. `line = 25.5` is stored as `255`.  Scaling by a
  positive constant preserves equality and the sign of every difference,
  which is all the engine ever observes of these fields (sort
  comparators subtract them and only the sign of the result is used).
* `gameTime` ISO-8601 UTC instants are stored as epoch milliseconds,
  via `msOfUTC`, so `new Date(s).getTime()` is the stored value and the
  UTC calendar-date component of the instant corresponds bijectively to
  the epoch day number `fdiv ms 86400000`.
* `Array.prototype.sort(cmp)` is modelled by a stable comparator sort
  (`sortC`): ECMAScript requires sort stability, and for a consistent
  comparator the stable sorted order is unique, so any stable sorting
  algorithm is an equivalent model.
* `Array.prototype.slice(start, end)` is modelled by `jsSlice`,
  including the clamping (and negative-index) semantics of ECMAScript.
* `String.prototype.localeCompare` is modelled as code-point
  lexicographic three-way comparison (the player names in the data are
  plain letters, where the locale ordering is the lexicographic one);
  `toLowerCase`/`includes` are modelled on the underlying character
  lists.
* In-place mutation (the handler copies the snapshot with `[...]`,
  rebinds the local through `filter`, then sorts the final array in
  place) is modelled explicitly in a small heap of arrays
  (`predictionsGETRef`), used to state that the stored snapshot is
  never mutated.
-/

/-! ## Generic list machinery: JS stable sort and slice -/

/-- Stable insertion of `a` into `l` for comparator `c`: `a` goes in
front of the first element `y` with `c a y ≤ 0` (so in front of the
first element comparing equal, which is what keeps a sort built from
this stable). -/
def insertC {α : Type} (c : α → α → Int) (a : α) : List α → List α
  | [] => [a]
  | y :: ys => if c a y ≤ 0 then a :: y :: ys else y :: insertC c a ys

/-- Stable comparator sort: model of `Array.prototype.sort(c)`. -/
def sortC {α : Type} (c : α → α → Int) : List α → List α
  | [] => []
  | a :: l => insertC c a (sortC c l)

theorem length_insertC {α : Type} (c : α → α → Int) (a : α) (l : List α) :
    (insertC c a l).length = l.length + 1 := by
  induction l with
  | nil => rfl
  | cons y ys ih =>
    simp only [insertC]
    by_cases h : c a y ≤ 0 <;> simp [h, ih]

theorem length_sortC {α : Type} (c : α → α → Int) (l : List α) :
    (sortC c l).length = l.length := by
  induction l with
  | nil => rfl
  | cons a l ih => simp [sortC, length_insertC, ih]

theorem mem_insertC {α : Type} (c : α → α → Int) (a x : α) (l : List α) :
    x ∈ insertC c a l ↔ x = a ∨ x ∈ l := by
  induction l with
  | nil => simp [insertC]
  | cons y ys ih =>
    simp only [insertC]
    by_cases h : c a y ≤ 0
    · simp [h, List.mem_cons]
    · simp only [h, if_false, List.mem_cons, ih]
      tauto

theorem mem_sortC {α : Type} (c : α → α → Int) (x : α) (l : List α) :
    x ∈ sortC c l ↔ x ∈ l := by
  induction l with
  | nil => simp [sortC]
  | cons a l ih => simp [sortC, mem_insertC, ih]

theorem filter_insertC_neg {α : Type} (c : α → α → Int) (p : α → Bool)
    (a : α) (l : List α) (ha : p a = false) :
    (insertC c a l).filter p = l.filter p := by
  induction l with
  | nil => simp [insertC, ha]
  | cons y ys ih =>
    simp only [insertC]
    by_cases h : c a y ≤ 0
    · simp [h, List.filter_cons, ha]
    · simp only [h, if_false, List.filter_cons]
      by_cases hy : p y <;> simp [hy, ih]

theorem filter_insertC_pos {α : Type} (c : α → α → Int) (p : α → Bool)
    (a : α) (l : List α) (ha : p a = true)
    (hc : ∀ y ∈ l, p y = true → c a y ≤ 0) :
    (insertC c a l).filter p = a :: l.filter p := by
  induction l with
  | nil => simp [insertC, ha]
  | cons y ys ih =>
    simp only [insertC]
    by_cases h : c a y ≤ 0
    · simp [h, List.filter_cons, ha]
    · have hy : p y = false := by
        by_contra hy
        exact h (hc y (List.mem_cons_self y ys) (Bool.of_not_eq_false hy))
      simp only [h, if_false, List.filter_cons, hy, Bool.false_eq_true, if_false]
      exact ih fun z hz hpz => hc z (List.mem_cons_of_mem y hz) hpz

/-- A stable sort does not reorder the elements of any class that is
pairwise tied under the comparator: filtering the sorted list by such a
class returns the same subsequence as filtering the input. -/
theorem filter_sortC {α : Type} (c : α → α → Int) (p : α → Bool) (l : List α)
    (hc : ∀ x y, p x = true → p y = true → c x y ≤ 0) :
    (sortC c l).filter p = l.filter p := by
  induction l with
  | nil => rfl
  | cons a l ih =>
    simp only [sortC, List.filter_cons]
    by_cases ha : p a
    · rw [filter_insertC_pos c p a (sortC c l) ha
        (fun y _ hpy => hc a y ha hpy), ih, ha]
      simp
    · have ha' : p a = false := Bool.of_not_eq_true ha
      rw [filter_insertC_neg c p a (sortC c l) ha', ih, ha']
      simp

theorem pairwise_insertC {α : Type} (c : α → α → Int) (a : α) (l : List α)
    (htot : ∀ x y : α, ¬ c x y ≤ 0 → c y x ≤ 0)
    (htrans : ∀ x y z : α, c x y ≤ 0 → c y z ≤ 0 → c x z ≤ 0)
    (hl : l.Pairwise (fun x y => c x y ≤ 0)) :
    (insertC c a l).Pairwise (fun x y => c x y ≤ 0) := by
  induction l with
  | nil => simp [insertC]
  | cons y ys ih =>
    rcases List.pairwise_cons.mp hl with ⟨hy, hys⟩
    simp only [insertC]
    by_cases h : c a y ≤ 0
    · simp only [h, if_true]
      refine List.pairwise_cons.mpr ⟨?_, hl⟩
      intro z hz
      rcases List.mem_cons.mp hz with rfl | hz
      · exact h
      · exact htrans a y z h (hy z hz)
    · simp only [h, if_false]
      refine List.pairwise_cons.mpr ⟨?_, ih hys⟩
      intro z hz
      rcases (mem_insertC c a z ys).mp hz with h1 | hz
      · rw [h1]; exact htot a y h
      · exact hy z hz

/-- The stable sort orders its output by the comparator, for any total
transitive comparator. -/
theorem pairwise_sortC {α : Type} (c : α → α → Int) (l : List α)
    (htot : ∀ x y : α, ¬ c x y ≤ 0 → c y x ≤ 0)
    (htrans : ∀ x y z : α, c x y ≤ 0 → c y z ≤ 0 → c x z ≤ 0) :
    (sortC c l).Pairwise (fun x y => c x y ≤ 0) := by
  induction l with
  | nil => simp [sortC]
  | cons a l ih => exact pairwise_insertC c a (sortC c l) htot htrans ih

theorem insertC_congr {α : Type} (c c' : α → α → Int) (a : α) (l : List α)
    (h : ∀ x y, c x y = c' x y) : insertC c a l = insertC c' a l := by
  induction l with
  | nil => rfl
  | cons y ys ih => simp only [insertC, h, ih]

theorem sortC_congr {α : Type} (c c' : α → α → Int) (l : List α)
    (h : ∀ x y, c x y = c' x y) : sortC c l = sortC c' l := by
  induction l with
  | nil => rfl
  | cons a l ih => simp only [sortC, ih, insertC_congr c c' a _ h]

/-- `Array.prototype.slice(start, end)`: negative indices count from the
end, and both bounds are clamped to the array length. -/
def jsSlice {α : Type} (l : List α) (start stop : Int) : List α :=
  let len : Int := l.length
  let s := if start < 0 then max (len + start) 0 else min start len
  let e := if stop < 0 then max (len + stop) 0 else min stop len
  (l.drop s.toNat).take (e - s).toNat

/-- `Math.ceil(a / b)` on integer operands, valid for `b ≠ 0` (for
`b = 0` JavaScript produces `±Infinity`, which has no integer model;
every property below assumes a positive `b`). -/
def jsCeilDiv (a b : Int) : Int := -(Int.fdiv (-a) b)

/-! ## String helpers -/

/-- Code-point lexicographic strict order on character lists: model of
the string ordering underlying `localeCompare` for plain-letter names. -/
def lexLt : List Char → List Char → Bool
  | [], [] => false
  | [], _ :: _ => true
  | _ :: _, [] => false
  | a :: as, b :: bs => if a < b then true else if b < a then false else lexLt as bs

theorem lexLt_asymm_eq : ∀ x y : List Char,
    lexLt x y = false → lexLt y x = false → x = y
  | [], [], _, _ => rfl
  | [], _ :: _, h, _ => by simp [lexLt] at h
  | _ :: _, [], _, h => by simp [lexLt] at h
  | a :: as, b :: bs, h1, h2 => by
    simp only [lexLt] at h1 h2
    by_cases hab : a < b
    · simp [hab] at h1
    · by_cases hba : b < a
      · simp [hab, hba] at h2
      · have hEq : a = b := le_antisymm (le_of_not_lt hba) (le_of_not_lt hab)
        subst hEq
        simp only [lt_irrefl, if_false] at h1 h2
        exact congrArg (a :: ·) (lexLt_asymm_eq as bs h1 h2)

/-- `a.localeCompare(b)`: three-way comparison returning a negative,
zero or positive number. -/
def localeCompare (a b : String) : Int :=
  if lexLt a.data b.data then -1 else if lexLt b.data a.data then 1 else 0

theorem localeCompare_eq_zero (a b : String) :
    localeCompare a b = 0 ↔ a = b := by
  constructor
  · intro h
    by_cases h1 : lexLt a.data b.data
    · simp [localeCompare, h1] at h
    · by_cases h2 : lexLt b.data a.data
      · simp [localeCompare, h1, h2] at h
      · have := lexLt_asymm_eq a.data b.data
          (Bool.of_not_eq_true h1) (Bool.of_not_eq_true h2)
        cases a; cases b; exact congrArg String.mk this
  · intro h
    subst h
    have hf : lexLt a.data a.data = false := by
      induction a.data with
      | nil => rfl
      | cons c cs ih => simp [lexLt, ih]
    simp [localeCompare, hf]

/-- Does `needle` occur at the head of `hay`? -/
def leadsWith : List Char → List Char → Bool
  | [], _ => true
  | _ :: _, [] => false
  | a :: as, b :: bs => a == b && leadsWith as bs

/-- Does `needle` occur anywhere in `hay`? -/
def listHas (needle : List Char) : List Char → Bool
  | [] => needle.isEmpty
  | c :: rest => leadsWith needle (c :: rest) || listHas needle rest

/-- `hay.includes(needle)` on strings. -/
def jsIncludes (hay needle : String) : Bool := listHas needle.data hay.data

/-- `s.toLowerCase()` (the data only contains characters on which
`Char.toLower` agrees with the JavaScript lowercase mapping). -/
def jsToLower (s : String) : String := String.mk (s.data.map Char.toLower)

/-! ## UTC calendar dates

ISO-8601 instants are represented by epoch milliseconds.  `daysFromCivil`
is the standard civil-from-days conversion (Gregorian calendar),
mapping a calendar date to its epoch day number; the UTC calendar-date
component of an instant `ms` — what `new Date(ms).toISOString()`
renders before the `T` — corresponds bijectively to the epoch day
number `fdiv ms 86400000`. -/

/-- Epoch day number of the Gregorian calendar date `y-m-d`
(e.g. `daysFromCivil 1970 1 1 = 0`). -/
def daysFromCivil (y : Int) (m d : Nat) : Int :=
  let y' : Int := if m ≤ 2 then y - 1 else y
  let era : Int := Int.fdiv y' 400
  let yoe : Nat := (y' - era * 400).toNat
  let doy : Nat := (153 * (if 2 < m then m - 3 else m + 9) + 2) / 5 + d - 1
  let doe : Nat := yoe * 365 + yoe / 4 - yoe / 100 + doy
  era * 146097 + (doe : Int) - 719468

/-- Epoch milliseconds of the UTC instant `y-m-d hh:mi:ss`. -/
def msOfUTC (y : Int) (m d hh mi ss : Nat) : Int :=
  daysFromCivil y m d * 86400000 + ((hh * 3600 + mi * 60 + ss : Nat) : Int) * 1000

/-- Epoch day number holding the instant `ms`: the UTC calendar date of
`ms`. -/
def utcDayOf (ms : Int) : Int := Int.fdiv ms 86400000

theorem utcDayOf_msOfUTC (y : Int) (m d hh mi ss : Nat)
    (h : (hh * 3600 + mi * 60 + ss) * 1000 < 86400000) :
    utcDayOf (msOfUTC y m d hh mi ss) = daysFromCivil y m d := by
  unfold utcDayOf msOfUTC
  have h0 : (0 : Int) ≤ ((hh * 3600 + mi * 60 + ss : Nat) : Int) * 1000 := by positivity
  have h1 : ((hh * 3600 + mi * 60 + ss : Nat) : Int) * 1000 < 86400000 := by
    exact_mod_cast h
  rw [Int.fdiv_eq_ediv _ (by norm_num), Int.add_comm,
    Int.add_mul_ediv_right _ _ (by norm_num : (86400000 : Int) ≠ 0),
    Int.ediv_eq_zero_of_lt h0 h1]
  ring

/-! ## Data model and the mock snapshot -/

/-- One prediction record, as served by the API route.  `line` and
`predictedValue` are stored in tenths, `overProbability` in hundredths
(see the header); `gameTime` is epoch milliseconds. -/
structure PredictionData where
  id : String
  player : String
  team : String
  opponent : String
  gameTime : Int
  sport : String
  stat : String
  line : Int
  predictedValue : Int
  overProbability : Int
  confidence : Int
  confidenceCategory : String
  keyFactors : List String
deriving DecidableEq, Repr

/-- The mock snapshot of the API route (`mockPredictions`). -/
def mockPredictions : List PredictionData := [
  { id := "1", player := "LeBron James", team := "LAL", opponent := "BOS",
    gameTime := msOfUTC 2025 3 21 20 0 0, sport := "NBA", stat := "Points",
    line := 255, predictedValue := 275, overProbability := 74,
    confidence := 80, confidenceCategory := "High",
    keyFactors := ["High usage rate", "Weak opponent defense",
      "Recent scoring streak"] },
  { id := "2", player := "Stephen Curry", team := "GSW", opponent := "PHX",
    gameTime := msOfUTC 2025 3 21 22 30 0, sport := "NBA", stat := "3-Pointers",
    line := 45, predictedValue := 58, overProbability := 82,
    confidence := 92, confidenceCategory := "Very High",
    keyFactors := ["Phoenix allows most 3PA", "Recent hot shooting streak",
      "Home court advantage"] },
  { id := "3", player := "Nikola Jokić", team := "DEN", opponent := "MIA",
    gameTime := msOfUTC 2025 3 22 19 0 0, sport := "NBA", stat := "Assists",
    line := 85, predictedValue := 102, overProbability := 78,
    confidence := 85, confidenceCategory := "High",
    keyFactors := ["Murray returning from injury", "Miami's defensive scheme",
      "Averaging 11.2 assists last 5 games"] },
  { id := "4", player := "Joel Embiid", team := "PHI", opponent := "NYK",
    gameTime := msOfUTC 2025 3 22 19 30 0, sport := "NBA", stat := "Rebounds",
    line := 115, predictedValue := 103, overProbability := 35,
    confidence := 75, confidenceCategory := "High",
    keyFactors := ["Strong NYK rebounding", "Limited minutes expected",
      "Under in last 3 matchups"] },
  { id := "5", player := "Luka Dončić", team := "DAL", opponent := "LAC",
    gameTime := msOfUTC 2025 3 22 20 30 0, sport := "NBA",
    stat := "Points + Rebounds + Assists",
    line := 475, predictedValue := 523, overProbability := 68,
    confidence := 70, confidenceCategory := "Moderate",
    keyFactors := ["High usage without Irving", "Clippers defensive focus",
      "Averaging 51.2 PRA last 10 games"] },
  { id := "6", player := "Jayson Tatum", team := "BOS", opponent := "LAL",
    gameTime := msOfUTC 2025 3 21 20 0 0, sport := "NBA", stat := "Points",
    line := 285, predictedValue := 268, overProbability := 42,
    confidence := 65, confidenceCategory := "Moderate",
    keyFactors := ["Lakers improved defense", "Brown taking more shots",
      "Under in 4 of last 6 games"] },
  { id := "7", player := "Patrick Mahomes", team := "KC", opponent := "BAL",
    gameTime := msOfUTC 2025 3 23 18 0 0, sport := "NFL", stat := "Passing Yards",
    line := 2855, predictedValue := 3102, overProbability := 71,
    confidence := 75, confidenceCategory := "High",
    keyFactors := ["Baltimore secondary injuries", "High-scoring game expected",
      "Strong performance in last matchup"] },
  { id := "8", player := "Lamar Jackson", team := "BAL", opponent := "KC",
    gameTime := msOfUTC 2025 3 23 18 0 0, sport := "NFL", stat := "Rushing Yards",
    line := 655, predictedValue := 783, overProbability := 68,
    confidence := 72, confidenceCategory := "High",
    keyFactors := ["KC struggles against mobile QBs",
      "Designed run plays increasing", "Weather conditions favor running"] },
  { id := "9", player := "Shohei Ohtani", team := "LAD", opponent := "SF",
    gameTime := msOfUTC 2025 3 22 21 10 0, sport := "MLB", stat := "Strikeouts",
    line := 75, predictedValue := 87, overProbability := 64,
    confidence := 68, confidenceCategory := "Moderate",
    keyFactors := ["Giants high K-rate vs. RHP", "Ohtani's splitter effectiveness",
      "Favorable umpire for pitchers"] },
  { id := "10", player := "Aaron Judge", team := "NYY", opponent := "BOS",
    gameTime := msOfUTC 2025 3 22 18 5 0, sport := "MLB", stat := "Total Bases",
    line := 15, predictedValue := 23, overProbability := 76,
    confidence := 82, confidenceCategory := "High",
    keyFactors := ["Strong vs. Boston pitching", "Wind blowing out to right field",
      "Hot streak in last 7 games"] },
  { id := "11", player := "Connor McDavid", team := "EDM", opponent := "VGK",
    gameTime := msOfUTC 2025 3 22 22 0 0, sport := "NHL", stat := "Points",
    line := 15, predictedValue := 18, overProbability := 62,
    confidence := 67, confidenceCategory := "Moderate",
    keyFactors := ["Vegas goaltender struggles", "Power play opportunities",
      "Multi-point games in 3 of last 5"] },
  { id := "12", player := "Auston Matthews", team := "TOR", opponent := "MTL",
    gameTime := msOfUTC 2025 3 22 19 0 0, sport := "NHL", stat := "Shots on Goal",
    line := 45, predictedValue := 57, overProbability := 79,
    confidence := 85, confidenceCategory := "High",
    keyFactors := ["Montreal allows most shots in league",
      "Matthews averaging 5.8 SOG last 10 games", "Rivalry game intensity"] },
  { id := "13", player := "Erling Haaland", team := "MCI", opponent := "ARS",
    gameTime := msOfUTC 2025 3 23 16 30 0, sport := "Soccer",
    stat := "Shots on Target",
    line := 25, predictedValue := 32, overProbability := 67,
    confidence := 73, confidenceCategory := "High",
    keyFactors := ["Arsenal missing key defender", "City's attacking form",
      "Haaland's home record"] },
  { id := "14", player := "Mohamed Salah", team := "LIV", opponent := "CHE",
    gameTime := msOfUTC 2025 3 23 14 0 0, sport := "Soccer",
    stat := "Goal Contributions",
    line := 5, predictedValue := 9, overProbability := 81,
    confidence := 78, confidenceCategory := "High",
    keyFactors := ["Chelsea defensive vulnerabilities", "Salah's record vs. Chelsea",
      "Liverpool's attacking tactics"] }]

/-! ## The `predictions` endpoint: filter, sort, paginate -/

/-- A parsed query for the `predictions` endpoint.  `none` models an
absent request parameter; `sortBy`/`sortOrder` carry the raw strings
(with the `|| 'confidence'` / `|| 'desc'` defaults applied); `date` is
the parsed `new Date(param)` instant in epoch milliseconds. -/
structure PredictionsQuery where
  sport : Option String := none
  minConfidence : Option Int := none
  date : Option Int := none
  stat : Option String := none
  team : Option String := none
  player : Option String := none
  sortBy : String := "confidence"
  sortOrder : String := "desc"
  page : Int := 1
  limit : Int := 10
deriving DecidableEq, Repr

/-- The filter pipeline of the handler: each present parameter applies
one `filter` pass, in the source order sport, minConfidence, date,
stat, team, player. -/
def applyFilters (q : PredictionsQuery) (records : List PredictionData) :
    List PredictionData :=
  let fp := records
  let fp := match q.sport with
    | some sport => fp.filter fun p => p.sport == sport
    | none => fp
  let fp := match q.minConfidence with
    | some mc => fp.filter fun p => decide (mc ≤ p.confidence)
    | none => fp
  let fp := match q.date with
    | some dms =>
      let targetDate := utcDayOf dms
      fp.filter fun p => utcDayOf p.gameTime == targetDate
    | none => fp
  let fp := match q.stat with
    | some stat => fp.filter fun p => p.stat == stat
    | none => fp
  let fp := match q.team with
    | some team => fp.filter fun p => p.team == team || p.opponent == team
    | none => fp
  match q.player with
    | some player => fp.filter fun p => jsIncludes (jsToLower p.player) (jsToLower player)
    | none => fp

/-- The conjunction of all active filter predicates of `q`. -/
def matchesAll (q : PredictionsQuery) (p : PredictionData) : Bool :=
  (match q.sport with | some sport => p.sport == sport | none => true) &&
  (match q.minConfidence with | some mc => decide (mc ≤ p.confidence) | none => true) &&
  (match q.date with | some dms => utcDayOf p.gameTime == utcDayOf dms | none => true) &&
  (match q.stat with | some stat => p.stat == stat | none => true) &&
  (match q.team with | some team => p.team == team || p.opponent == team | none => true) &&
  (match q.player with
    | some player => jsIncludes (jsToLower p.player) (jsToLower player)
    | none => true)

/-- The `sortBy` values the handler's comparator recognizes. -/
def validSortFields : List String :=
  ["confidence", "gameTime", "player", "line", "predictedValue"]

/-- The `comparison` value of the handler's comparator: the `switch` on
`sortBy`, whose `default` arm is the confidence comparison. -/
def comparisonOf (sortBy : String) (a b : PredictionData) : Int :=
  if sortBy == "confidence" then a.confidence - b.confidence
  else if sortBy == "gameTime" then a.gameTime - b.gameTime
  else if sortBy == "player" then localeCompare a.player b.player
  else if sortBy == "line" then a.line - b.line
  else if sortBy == "predictedValue" then a.predictedValue - b.predictedValue
  else a.confidence - b.confidence

/-- The full comparator passed to `sort`: ascending order returns the
comparison, anything else returns its negation. -/
def sortCmp (sortBy sortOrder : String) (a b : PredictionData) : Int :=
  let comparison := comparisonOf sortBy a b
  if sortOrder == "asc" then comparison else -comparison

/-- The response of the `predictions` endpoint. -/
structure PredictionsResponse where
  predictions : List PredictionData
  total : Nat
  page : Int
  limit : Int
  totalPages : Int
deriving DecidableEq, Repr

/-- The `predictions` branch of the handler over a given snapshot:
filter, then sort, then slice, then report pagination metadata. -/
def predictionsGET (snapshot : List PredictionData) (q : PredictionsQuery) :
    PredictionsResponse :=
  let filteredPredictions := applyFilters q snapshot
  let filteredPredictions := sortC (sortCmp q.sortBy q.sortOrder) filteredPredictions
  let startIndex := (q.page - 1) * q.limit
  let endIndex := q.page * q.limit
  let paginatedPredictions := jsSlice filteredPredictions startIndex endIndex
  { predictions := paginatedPredictions
    total := filteredPredictions.length
    page := q.page
    limit := q.limit
    totalPages := jsCeilDiv filteredPredictions.length q.limit }

/-- The `predictions` endpoint as shipped, over the mock snapshot. -/
def listGET (q : PredictionsQuery) : PredictionsResponse :=
  predictionsGET mockPredictions q

/-! ## The `summary` endpoint -/

structure SummaryResponse where
  totalPredictions : Nat
  sportBreakdown : List (String × Nat)
  confidenceBreakdown : List (String × Nat)
  featuredPredictions : List PredictionData
deriving DecidableEq, Repr

/-- The comparator of the featured sort: `(a, b) => b.confidence - a.confidence`. -/
def featuredCmp (a b : PredictionData) : Int := b.confidence - a.confidence

/-- The `summary` branch of the handler, computed over the full
snapshot. -/
def summaryGET (snapshot : List PredictionData) : SummaryResponse :=
  { totalPredictions := snapshot.length
    sportBreakdown := [
      ("NBA", (snapshot.filter fun p => p.sport == "NBA").length),
      ("NFL", (snapshot.filter fun p => p.sport == "NFL").length),
      ("MLB", (snapshot.filter fun p => p.sport == "MLB").length),
      ("NHL", (snapshot.filter fun p => p.sport == "NHL").length),
      ("Soccer", (snapshot.filter fun p => p.sport == "Soccer").length)]
    confidenceBreakdown := [
      ("Very High", (snapshot.filter fun p => p.confidenceCategory == "Very High").length),
      ("High", (snapshot.filter fun p => p.confidenceCategory == "High").length),
      ("Moderate", (snapshot.filter fun p => p.confidenceCategory == "Moderate").length),
      ("Low", (snapshot.filter fun p => p.confidenceCategory == "Low").length),
      ("Very Low", (snapshot.filter fun p => p.confidenceCategory == "Very Low").length)]
    featuredPredictions :=
      jsSlice (sortC featuredCmp (snapshot.filter fun p => decide (80 ≤ p.confidence))) 0 3 }

/-! ## The filter pipeline is one filter by the conjunction -/

theorem applyFilters_eq_filter (q : PredictionsQuery) (l : List PredictionData) :
    applyFilters q l = l.filter (matchesAll q) := by
  rcases q with ⟨os, omc, od, ost, ote, opl, sb, so, pg, lim⟩
  unfold applyFilters matchesAll
  cases os <;> cases omc <;> cases od <;> cases ost <;> cases ote <;> cases opl <;>
    simp only [List.filter_filter, Bool.and_true, Bool.true_and, List.filter_true] <;>
    first
    | rfl
    | exact List.filter_congr fun x _ => by ac_rfl

/-! ## Pagination arithmetic -/

theorem jsSlice_nat {α : Type} (l : List α) (s k : Nat) :
    jsSlice l (s : Int) ((s + k : Nat) : Int) = (l.drop s).take k := by
  unfold jsSlice
  have hs : ¬ ((s : Int) < 0) := by omega
  have he : ¬ (((s + k : Nat) : Int) < 0) := by omega
  simp only [hs, he, if_false]
  by_cases h1 : s ≤ l.length
  · have hmin : min (s : Int) (l.length : Int) = s := by
      simp only [min_def]
      split <;> omega
    rw [hmin]
    by_cases h2 : s + k ≤ l.length
    · have hmin2 : min ((s + k : Nat) : Int) (l.length : Int) = ((s + k : Nat) : Int) := by
        simp only [min_def]
        split <;> omega
      rw [hmin2]
      have e1 : ((s : Int)).toNat = s := by omega
      have e2 : (((s + k : Nat) : Int) - (s : Int)).toNat = k := by omega
      rw [e1, e2]
    · have hmin2 : min ((s + k : Nat) : Int) (l.length : Int) = (l.length : Int) := by
        simp only [min_def]
        split <;> omega
      rw [hmin2]
      have e1 : ((s : Int)).toNat = s := by omega
      have e2 : ((l.length : Int) - (s : Int)).toNat = l.length - s := by omega
      rw [e1, e2]
      have hlen : (l.drop s).length = l.length - s := List.length_drop s l
      rw [List.take_of_length_le (by omega), List.take_of_length_le (by omega)]
  · have hmin : min (s : Int) (l.length : Int) = (l.length : Int) := by
      simp only [min_def]
      split <;> omega
    have hmin2 : min ((s + k : Nat) : Int) (l.length : Int) = (l.length : Int) := by
      simp only [min_def]
      split <;> omega
    rw [hmin, hmin2]
    simp only [sub_self, Int.toNat_zero, List.take_zero]
    rw [List.drop_of_length_le (by omega), List.take_of_length_le (by simp)]

/-- An out-of-range slice (start at or beyond the length, nonnegative
bounds) is empty. -/
theorem jsSlice_nil_of_ge {α : Type} (l : List α) (s e : Int)
    (h0 : 0 ≤ s) (hs : (l.length : Int) ≤ s) (he : 0 ≤ e) :
    jsSlice l s e = [] := by
  unfold jsSlice
  simp only [not_lt.mpr h0, not_lt.mpr he, if_false]
  have hmin : min s (l.length : Int) = (l.length : Int) := min_eq_right hs
  rw [hmin]
  have : (min e (l.length : Int) - (l.length : Int)).toNat = 0 := by
    have := min_le_right e (l.length : Int)
    omega
  rw [this, List.take_zero]

theorem jsCeilDiv_coe (n k : Nat) (hk : 0 < k) :
    jsCeilDiv (n : Int) (k : Int) = (((n + k - 1) / k : Nat) : Int) := by
  unfold jsCeilDiv
  cases k with
  | zero => omega
  | succ j =>
    cases n with
    | zero =>
      have h1 : Int.fdiv (-((0 : Nat) : Int)) ((j + 1 : Nat) : Int) = 0 := rfl
      have h2 : (0 + (j + 1) - 1) / (j + 1) = 0 := Nat.div_eq_of_lt (by omega)
      rw [h1, h2]
      rfl
    | succ m =>
      have h1 : (-((m + 1 : Nat) : Int)) = Int.negSucc m := rfl
      have h2 : Int.fdiv (Int.negSucc m) ((j + 1 : Nat) : Int) = Int.negSucc (m / (j + 1)) := rfl
      rw [h1, h2]
      have h3 : (m + 1 + (j + 1) - 1) / (j + 1) = m / (j + 1) + 1 := by
        have h4 : m + 1 + (j + 1) - 1 = m + (j + 1) := by omega
        rw [h4, Nat.add_div_right _ (by omega)]
      rw [h3]
      simp [Int.negSucc_eq]

/-- Concatenating the first `m` chunks of size `k` gives the first
`m * k` elements. -/
theorem flatten_chunks_take {α : Type} (k : Nat) (l : List α) :
    ∀ m : Nat, ((List.range m).map fun i => (l.drop (i * k)).take k).flatten
      = l.take (m * k)
  | 0 => by simp
  | m + 1 => by
    rw [List.range_succ, List.map_append, List.flatten_append,
      flatten_chunks_take k l m]
    simp only [List.map_cons, List.map_nil, List.flatten_cons, List.flatten_nil,
      List.append_nil]
    rw [← List.take_add, Nat.succ_mul]

/-- Concatenating all `ceil(len / k)` chunks of size `k` reproduces the
list. -/
theorem flatten_chunks {α : Type} (k : Nat) (l : List α) (hk : 0 < k) :
    ((List.range ((l.length + k - 1) / k)).map
      fun i => (l.drop (i * k)).take k).flatten = l := by
  rw [flatten_chunks_take]
  apply List.take_of_length_le
  have h1 := Nat.div_add_mod (l.length + k - 1) k
  have h2 : (l.length + k - 1) % k < k := Nat.mod_lt _ hk
  have h3 : k * ((l.length + k - 1) / k) = ((l.length + k - 1) / k) * k :=
    Nat.mul_comm _ _
  omega

/-! ## Reference-level model of the handler (array mutation)

JavaScript arrays are heap references: `[...mockPredictions]` allocates
a copy, each `filteredPredictions = filteredPredictions.filter(...)`
allocates a fresh array and rebinds the local, and `.sort()` mutates
the array the local currently points at in place.  `Heap` is the store
of arrays, a reference is an index into it. -/

abbrev Heap : Type := List (List PredictionData)

def readRef (h : Heap) (r : Nat) : List PredictionData := h.getD r []

def writeRef (h : Heap) (r : Nat) (v : List PredictionData) : Heap := h.set r v

def heapLen (h : Heap) : Nat := h.length

/-- Allocate a fresh array holding `v`; returns the new heap and the
fresh reference. -/
def alloc (h : Heap) (v : List PredictionData) : Heap × Nat := (h ++ [v], h.length)

/-- One optional filter stage at the reference level: a present
parameter allocates the filtered copy and rebinds, an absent one leaves
the binding alone. -/
def filterStage {β : Type} (o : Option β) (pred : β → PredictionData → Bool)
    (st : Heap × Nat) : Heap × Nat :=
  match o with
  | some x => alloc st.1 ((readRef st.1 st.2).filter (pred x))
  | none => st

/-- The `predictions` branch at the reference level: copy the snapshot,
run the six filter stages, sort the current array in place, then read
the slice out of it. -/
def predictionsGETRef (q : PredictionsQuery) (h : Heap) (snapRef : Nat) :
    Heap × PredictionsResponse :=
  let st := alloc h (readRef h snapRef)
  let st := filterStage q.sport (fun sport p => p.sport == sport) st
  let st := filterStage q.minConfidence (fun mc p => decide (mc ≤ p.confidence)) st
  let st := filterStage q.date
    (fun dms p => utcDayOf p.gameTime == utcDayOf dms) st
  let st := filterStage q.stat (fun stat p => p.stat == stat) st
  let st := filterStage q.team (fun team p => p.team == team || p.opponent == team) st
  let st := filterStage q.player
    (fun player p => jsIncludes (jsToLower p.player) (jsToLower player)) st
  let h1 := writeRef st.1 st.2 (sortC (sortCmp q.sortBy q.sortOrder) (readRef st.1 st.2))
  let filteredPredictions := readRef h1 st.2
  let startIndex := (q.page - 1) * q.limit
  let endIndex := q.page * q.limit
  (h1,
    { predictions := jsSlice filteredPredictions startIndex endIndex
      total := filteredPredictions.length
      page := q.page
      limit := q.limit
      totalPages := jsCeilDiv filteredPredictions.length q.limit })

theorem readRef_alloc_lt (h : Heap) (v : List PredictionData) (x : Nat)
    (hx : x < heapLen h) : readRef (alloc h v).1 x = readRef h x := by
  unfold readRef alloc heapLen at *
  exact List.getD_append h [v] [] x hx

theorem readRef_writeRef_ne (h : Heap) (r : Nat) (v : List PredictionData)
    (x : Nat) (hx : x ≠ r) : readRef (writeRef h r v) x = readRef h x := by
  unfold readRef writeRef List.getD
  rw [List.get?_set_ne v h (fun he => hx he.symm)]

/-- The filter stages never touch an old reference, and keep the
current binding fresh (at or beyond the original heap frontier). -/
theorem filterStage_frame {β : Type} (o : Option β)
    (pred : β → PredictionData → Bool) (st : Heap × Nat) (x : Nat)
    (hx : x < heapLen st.1) (hr : st.2 ≠ x) :
    readRef (filterStage o pred st).1 x = readRef st.1 x ∧
      (filterStage o pred st).2 ≠ x ∧
      x < heapLen (filterStage o pred st).1 := by
  cases o with
  | none => exact ⟨rfl, hr, hx⟩
  | some b =>
    have hx' : x < st.1.length := hx
    refine ⟨readRef_alloc_lt _ _ _ hx, ?_, ?_⟩
    · show st.1.length ≠ x
      omega
    · show x < (st.1 ++ _).length
      simp only [List.length_append]
      omega

/-! ## Comparator facts -/

/-- Tying with a common representative is transitive: two records whose
sort keys both equal the key of `r` have equal sort keys. -/
theorem comparisonOf_trans_zero (sb : String) (x y r : PredictionData)
    (hx : comparisonOf sb x r = 0) (hy : comparisonOf sb y r = 0) :
    comparisonOf sb x y = 0 := by
  unfold comparisonOf at hx hy ⊢
  split_ifs at hx hy ⊢ <;>
    first
    | omega
    | (rw [(localeCompare_eq_zero x.player r.player).mp hx,
        (localeCompare_eq_zero y.player r.player).mp hy]
       exact (localeCompare_eq_zero _ _).mpr rfl)

/-- The `default` arm of the `switch`: an unrecognized `sortBy` uses
the confidence comparison. -/
theorem comparisonOf_default (sb : String) (h : sb ∉ validSortFields)
    (x y : PredictionData) : comparisonOf sb x y = comparisonOf "confidence" x y := by
  unfold validSortFields at h
  simp only [List.mem_cons, List.not_mem_nil, or_false, not_or] at h
  obtain ⟨h1, h2, h3, h4, h5⟩ := h
  unfold comparisonOf
  rw [beq_false_of_ne h1, beq_false_of_ne h2, beq_false_of_ne h3,
    beq_false_of_ne h4, beq_false_of_ne h5]
  rfl

theorem sortCmp_default (sb so : String) (h : sb ∉ validSortFields)
    (x y : PredictionData) : sortCmp sb so x y = sortCmp "confidence" so x y := by
  unfold sortCmp
  rw [comparisonOf_default sb h]

theorem featuredCmp_total (x y : PredictionData) (h : ¬ featuredCmp x y ≤ 0) :
    featuredCmp y x ≤ 0 := by
  unfold featuredCmp at *; omega

theorem featuredCmp_trans (x y z : PredictionData)
    (h1 : featuredCmp x y ≤ 0) (h2 : featuredCmp y z ≤ 0) : featuredCmp x z ≤ 0 := by
  unfold featuredCmp at *; omega

/-! ## Claims -/

/-- C1, counterexample: on the shipped snapshot, a filter matching no
record gives `total = 0` and the handler reports `totalPages = 0`,
not the claimed floor of `1`. -/
theorem c1_zero_total_counterexample :
    (listGET { sport := some "Cricket" }).total = 0 ∧
    (listGET { sport := some "Cricket" }).totalPages < 1 := by decide

/-- C1 (amended): for every query with `limit ≥ 1`, the reported
`totalPages` equals `ceil(total / limit)` with no lower floor: in
particular `total = 0` yields `totalPages = 0`, not `1`. -/
theorem c1_totalPages_ceil (snapshot : List PredictionData) (q : PredictionsQuery)
    (hl : 1 ≤ q.limit) :
    (predictionsGET snapshot q).totalPages =
      ((((predictionsGET snapshot q).total + q.limit.toNat - 1) / q.limit.toNat : Nat) : Int) ∧
    ((predictionsGET snapshot q).total = 0 → (predictionsGET snapshot q).totalPages = 0) := by
  obtain ⟨k, hk, hkpos⟩ : ∃ k : Nat, q.limit = (k : Int) ∧ 0 < k :=
    ⟨q.limit.toNat, by omega, by omega⟩
  have htot : (predictionsGET snapshot q).total
      = (sortC (sortCmp q.sortBy q.sortOrder) (applyFilters q snapshot)).length := rfl
  have htp : (predictionsGET snapshot q).totalPages
      = jsCeilDiv ((sortC (sortCmp q.sortBy q.sortOrder) (applyFilters q snapshot)).length : Int)
          q.limit := rfl
  constructor
  · rw [htp, htot, hk, jsCeilDiv_coe _ k hkpos, Int.toNat_ofNat]
  · intro h0
    rw [htot] at h0
    rw [htp, h0, hk, jsCeilDiv_coe 0 k hkpos]
    have hz : (0 + k - 1) / k = 0 := Nat.div_eq_of_lt (by omega)
    rw [hz]
    rfl

theorem c1_totalPages_ceil_witness :
    1 ≤ ({ } : PredictionsQuery).limit ∧
    (predictionsGET mockPredictions { }).totalPages =
      ((((predictionsGET mockPredictions { }).total
          + ({ } : PredictionsQuery).limit.toNat - 1)
        / ({ } : PredictionsQuery).limit.toNat : Nat) : Int) :=
  ⟨by decide, (c1_totalPages_ceil mockPredictions { } (by decide)).1⟩

/-- C2, counterexample: with an unrecognized `sortBy` and
`sortOrder = asc` the handler returns the confidence-*ascending*
order, not the default `(confidence, desc)` order the claim
promises regardless of `sortOrder`. -/
theorem c2_sortOrder_counterexample :
    (listGET { sortBy := "bogus", sortOrder := "asc" }).predictions ≠
      (listGET { sortBy := "confidence", sortOrder := "desc" }).predictions := by decide

/-- C2 (amended): an unrecognized `sortBy` never fails the request and
behaves exactly like `sortBy = confidence` with the *same* supplied
`sortOrder` (so it reproduces the default `(confidence, desc)` order
only when `sortOrder` is not `asc`). -/
theorem c2_sortBy_fallback (snapshot : List PredictionData) (q : PredictionsQuery)
    (h : q.sortBy ∉ validSortFields) :
    predictionsGET snapshot q = predictionsGET snapshot { q with sortBy := "confidence" } := by
  simp only [predictionsGET]
  rw [sortC_congr _ _ _ (fun x y => sortCmp_default q.sortBy q.sortOrder h x y)]
  rfl

theorem c2_sortBy_fallback_witness :
    "bogus" ∉ validSortFields ∧
    predictionsGET mockPredictions { sortBy := "bogus", sortOrder := "asc" } =
      predictionsGET mockPredictions
        { ({ sortBy := "bogus", sortOrder := "asc" } : PredictionsQuery) with
            sortBy := "confidence" } :=
  ⟨by decide,
    c2_sortBy_fallback mockPredictions { sortBy := "bogus", sortOrder := "asc" } (by decide)⟩

/-- C3: the filter step returns exactly the records satisfying all
active predicates (`matchesAll` spells them out: sport case-sensitive
equality, UTC calendar-day equality for the date, inclusive
`minConfidence` bound, exact stat, team-or-opponent code, and
case-insensitive player substring), as an order-preserving subsequence
of the snapshot; an absent predicate excludes nothing, and a filter
matching zero records returns the empty list rather than failing. -/
theorem c3_filter_exact (q : PredictionsQuery) (snapshot : List PredictionData) :
    applyFilters q snapshot = snapshot.filter (matchesAll q) ∧
    (applyFilters q snapshot).Sublist snapshot := by
  refine ⟨applyFilters_eq_filter q snapshot, ?_⟩
  rw [applyFilters_eq_filter q snapshot]
  exact List.filter_sublist snapshot

/-- C8: the filter step is idempotent. -/
theorem c8_filter_idempotent (q : PredictionsQuery) (snapshot : List PredictionData) :
    applyFilters q (applyFilters q snapshot) = applyFilters q snapshot := by
  rw [applyFilters_eq_filter, applyFilters_eq_filter, List.filter_filter]
  exact List.filter_congr fun x _ => by cases matchesAll q x <;> simp

/-- C4: at a fixed `limit ≥ 1` (same filters and sort), concatenating
the `predictions` of pages `1 .. totalPages` reproduces the filtered
and sorted sequence exactly — no duplicate, no missing element. -/
theorem c4_partition (snapshot : List PredictionData) (q : PredictionsQuery)
    (hl : 1 ≤ q.limit) :
    ((List.range (predictionsGET snapshot q).totalPages.toNat).map fun (i : Nat) =>
        (predictionsGET snapshot { q with page := (i : Int) + 1 }).predictions).flatten
      = sortC (sortCmp q.sortBy q.sortOrder) (applyFilters q snapshot) := by
  obtain ⟨k, hk, hkpos⟩ : ∃ k : Nat, q.limit = (k : Int) ∧ 0 < k :=
    ⟨q.limit.toNat, by omega, by omega⟩
  have htp : (predictionsGET snapshot q).totalPages.toNat
      = ((sortC (sortCmp q.sortBy q.sortOrder) (applyFilters q snapshot)).length + k - 1) / k := by
    show (jsCeilDiv
        ((sortC (sortCmp q.sortBy q.sortOrder) (applyFilters q snapshot)).length : Int)
        q.limit).toNat = _
    rw [hk, jsCeilDiv_coe _ k hkpos, Int.toNat_ofNat]
  have hpage : ∀ i : Nat,
      (predictionsGET snapshot { q with page := (i : Int) + 1 }).predictions
        = ((sortC (sortCmp q.sortBy q.sortOrder) (applyFilters q snapshot)).drop (i * k)).take k := by
    intro i
    show jsSlice (sortC (sortCmp q.sortBy q.sortOrder) (applyFilters q snapshot))
        (((i : Int) + 1 - 1) * q.limit) (((i : Int) + 1) * q.limit) = _
    have e1 : ((i : Int) + 1 - 1) * q.limit = ((i * k : Nat) : Int) := by
      rw [hk]; push_cast; ring
    have e2 : ((i : Int) + 1) * q.limit = ((i * k + k : Nat) : Int) := by
      rw [hk]; push_cast; ring
    rw [e1, e2, jsSlice_nat]
  rw [htp, funext hpage]
  exact flatten_chunks k _ hkpos

def partitionProbeQuery : PredictionsQuery := { sport := some "NBA", limit := 6 }

theorem c4_partition_witness :
    1 ≤ partitionProbeQuery.limit ∧
    ((List.range (predictionsGET mockPredictions partitionProbeQuery).totalPages.toNat).map
        fun (i : Nat) =>
          (predictionsGET mockPredictions
            { partitionProbeQuery with page := (i : Int) + 1 }).predictions).flatten
      = sortC (sortCmp partitionProbeQuery.sortBy partitionProbeQuery.sortOrder)
          (applyFilters partitionProbeQuery mockPredictions) :=
  ⟨by decide, c4_partition mockPredictions partitionProbeQuery (by decide)⟩

/-- C5: sort stability, for every valid sort field and both
directions: the subsequence of records tied (on the sort key) with any
fixed representative `r` is the same before and after sorting, so any
two records with equal sort-key values keep their relative order. -/
theorem c5_sort_stable (sb so : String) (l : List PredictionData) (r : PredictionData)
    (hsb : sb ∈ validSortFields) (hso : so = "asc" ∨ so = "desc") :
    (sortC (sortCmp sb so) l).filter (fun x => decide (comparisonOf sb x r = 0))
      = l.filter (fun x => decide (comparisonOf sb x r = 0)) := by
  apply filter_sortC
  intro x y hx hy
  have hxy := comparisonOf_trans_zero sb x y r (of_decide_eq_true hx) (of_decide_eq_true hy)
  unfold sortCmp
  by_cases hd : (so == "asc") = true <;> simp [hd, hxy]

/-- A record sharing its confidence score (85) with two mock records,
used as the tie-class representative in the stability witness. -/
def tieProbe : PredictionData :=
  { id := "probe", player := "", team := "", opponent := "", gameTime := 0,
    sport := "", stat := "", line := 0, predictedValue := 0, overProbability := 0,
    confidence := 85, confidenceCategory := "", keyFactors := [] }

theorem c5_sort_stable_witness :
    "confidence" ∈ validSortFields ∧
    ((sortC (sortCmp "confidence" "desc") mockPredictions).filter
        (fun x => decide (comparisonOf "confidence" x tieProbe = 0))
      = mockPredictions.filter (fun x => decide (comparisonOf "confidence" x tieProbe = 0))) :=
  ⟨by decide,
    c5_sort_stable "confidence" "desc" mockPredictions tieProbe (by decide) (Or.inr rfl)⟩

/-- C6: `featuredPredictions` is computed over the full unfiltered
snapshot as the records with confidence ≥ 80, stably sorted by
descending confidence, truncated to the first 3; hence it never has
more than 3 elements, every element clears the threshold, and it is
ordered by descending confidence.  On the mock snapshot it is records
2, 3, 12 (the 85-tie keeps snapshot order: 3 before 12). -/
theorem c6_featured (snapshot : List PredictionData) :
    (summaryGET snapshot).featuredPredictions
        = (sortC featuredCmp (snapshot.filter fun p => decide (80 ≤ p.confidence))).take 3 ∧
      (summaryGET snapshot).featuredPredictions.length ≤ 3 ∧
      ((summaryGET snapshot).featuredPredictions.all fun p => decide (80 ≤ p.confidence)) = true ∧
      (summaryGET snapshot).featuredPredictions.Pairwise
        (fun a b => b.confidence ≤ a.confidence) ∧
      (summaryGET mockPredictions).featuredPredictions.map (fun p => p.id) = ["2", "3", "12"] := by
  have hfeat : (summaryGET snapshot).featuredPredictions
      = (sortC featuredCmp (snapshot.filter fun p => decide (80 ≤ p.confidence))).take 3 := by
    show jsSlice (sortC featuredCmp (snapshot.filter fun p => decide (80 ≤ p.confidence))) 0 3 = _
    simpa using jsSlice_nat (sortC featuredCmp (snapshot.filter fun p => decide (80 ≤ p.confidence))) 0 3
  refine ⟨hfeat, ?_, ?_, ?_, by decide⟩
  · rw [hfeat]
    exact (List.length_take 3 _).le.trans (min_le_left _ _)
  · rw [hfeat, List.all_eq_true]
    intro x hx
    have hx1 : x ∈ sortC featuredCmp (snapshot.filter fun p => decide (80 ≤ p.confidence)) :=
      List.mem_of_mem_take hx
    have hx2 := (mem_sortC _ _ _).mp hx1
    exact (List.mem_filter.mp hx2).2
  · rw [hfeat]
    have hp := pairwise_sortC featuredCmp (snapshot.filter fun p => decide (80 ≤ p.confidence))
      featuredCmp_total featuredCmp_trans
    have hp2 := List.Pairwise.sublist (List.take_sublist 3 _) hp
    exact hp2.imp fun hab => by unfold featuredCmp at hab; omega

/-- C7: a page beyond the available range is a normal outcome: empty
`predictions`, while `total` and `totalPages` still describe the full
filtered set. -/
theorem c7_out_of_range (snapshot : List PredictionData) (q : PredictionsQuery)
    (hl : 1 ≤ q.limit)
    (hp : ((sortC (sortCmp q.sortBy q.sortOrder) (applyFilters q snapshot)).length : Int)
        ≤ (q.page - 1) * q.limit) :
    (predictionsGET snapshot q).predictions = [] ∧
    (predictionsGET snapshot q).total = (applyFilters q snapshot).length ∧
    (predictionsGET snapshot q).totalPages
        = jsCeilDiv ((applyFilters q snapshot).length : Int) q.limit := by
  have hlen : (sortC (sortCmp q.sortBy q.sortOrder) (applyFilters q snapshot)).length
      = (applyFilters q snapshot).length := length_sortC _ _
  refine ⟨?_, ?_, ?_⟩
  · show jsSlice (sortC (sortCmp q.sortBy q.sortOrder) (applyFilters q snapshot))
        ((q.page - 1) * q.limit) (q.page * q.limit) = []
    have hid : q.page * q.limit = (q.page - 1) * q.limit + q.limit := by ring
    apply jsSlice_nil_of_ge
    · omega
    · exact hp
    · omega
  · show (sortC (sortCmp q.sortBy q.sortOrder) (applyFilters q snapshot)).length
        = (applyFilters q snapshot).length
    exact hlen
  · show jsCeilDiv
        ((sortC (sortCmp q.sortBy q.sortOrder) (applyFilters q snapshot)).length : Int) q.limit
      = jsCeilDiv ((applyFilters q snapshot).length : Int) q.limit
    rw [hlen]

def pageProbeQuery : PredictionsQuery := { sport := some "NBA", page := 99, limit := 6 }

theorem c7_out_of_range_witness :
    1 ≤ pageProbeQuery.limit ∧
    (((sortC (sortCmp pageProbeQuery.sortBy pageProbeQuery.sortOrder)
        (applyFilters pageProbeQuery mockPredictions)).length : Int)
      ≤ (pageProbeQuery.page - 1) * pageProbeQuery.limit) ∧
    (listGET pageProbeQuery).predictions = [] ∧
    (listGET pageProbeQuery).total = 6 ∧
    (listGET pageProbeQuery).totalPages = 1 :=
  ⟨by decide, by decide,
    (c7_out_of_range mockPredictions pageProbeQuery (by decide) (by decide)).1,
    by decide, by decide⟩

/-- The frame invariant threaded through the reference-level handler:
the stored snapshot reads back unchanged, the local binding never
aliases it, and the snapshot reference stays in bounds. -/
def FrameInv (h : Heap) (snapRef : Nat) (st : Heap × Nat) : Prop :=
  readRef st.1 snapRef = readRef h snapRef ∧ st.2 ≠ snapRef ∧ snapRef < heapLen st.1

theorem filterStage_inv {β : Type} (o : Option β) (pred : β → PredictionData → Bool)
    {h : Heap} {snapRef : Nat} {st : Heap × Nat} (hinv : FrameInv h snapRef st) :
    FrameInv h snapRef (filterStage o pred st) := by
  obtain ⟨he, hr, hx⟩ := hinv
  obtain ⟨a, b, c⟩ := filterStage_frame o pred st snapRef hx hr
  exact ⟨a.trans he, b, c⟩

/-- C9: the `predictions` handler never mutates the stored snapshot:
the spread copy, the filter passes (each of which allocates a fresh
array) and the final in-place sort only ever touch arrays allocated
after the handler started, so the snapshot reference reads back
unchanged, element for element and in order. -/
theorem c9_no_mutation (q : PredictionsQuery) (h : Heap) (snapRef : Nat)
    (hlt : snapRef < heapLen h) :
    readRef (predictionsGETRef q h snapRef).1 snapRef = readRef h snapRef := by
  have inv0 : FrameInv h snapRef (alloc h (readRef h snapRef)) := by
    have hlt' : snapRef < h.length := hlt
    refine ⟨readRef_alloc_lt _ _ _ hlt, ?_, ?_⟩
    · show h.length ≠ snapRef
      omega
    · show snapRef < (h ++ _).length
      simp only [List.length_append]
      omega
  have inv := filterStage_inv q.player
    (fun player p => jsIncludes (jsToLower p.player) (jsToLower player))
    (filterStage_inv q.team (fun team p => p.team == team || p.opponent == team)
      (filterStage_inv q.stat (fun stat p => p.stat == stat)
        (filterStage_inv q.date (fun dms p => utcDayOf p.gameTime == utcDayOf dms)
          (filterStage_inv q.minConfidence (fun mc p => decide (mc ≤ p.confidence))
            (filterStage_inv q.sport (fun sport p => p.sport == sport) inv0)))))
  exact (readRef_writeRef_ne _ _ _ _ (fun he => inv.2.1 he.symm)).trans inv.1

theorem c9_no_mutation_witness :
    0 < heapLen [mockPredictions] ∧
    readRef (predictionsGETRef { sport := some "NBA" } [mockPredictions] 0).1 0
      = readRef [mockPredictions] 0 :=
  ⟨by decide, c9_no_mutation { sport := some "NBA" } [mockPredictions] 0 (by decide)⟩

/-- C10: the date filter compares UTC calendar days.  A record whose
game time is any instant of the UTC day `gy-gm-gd` matches a date
parameter parsed to any instant of the UTC day `y-m-d` exactly when the
two civil dates denote the same epoch day — independent of the
time-of-day on either side (and of any local time zone, which the
handler never consults). -/
theorem c10_date_filter_utc (p : PredictionData) (y : Int) (m d hh mi ss : Nat)
    (gy : Int) (gm gd ghh gmi gss : Nat)
    (htod : (hh * 3600 + mi * 60 + ss) * 1000 < 86400000)
    (hgtod : (ghh * 3600 + gmi * 60 + gss) * 1000 < 86400000)
    (hg : p.gameTime = msOfUTC gy gm gd ghh gmi gss) :
    (matchesAll { date := some (msOfUTC y m d hh mi ss) } p = true
      ↔ daysFromCivil gy gm gd = daysFromCivil y m d) := by
  unfold matchesAll
  simp only [Bool.and_true, Bool.true_and]
  rw [hg, utcDayOf_msOfUTC gy gm gd ghh gmi gss hgtod,
    utcDayOf_msOfUTC y m d hh mi ss htod]
  exact beq_iff_eq

/-- A record whose game is late in the evening of 2025-03-21 UTC, for
the boundary witness. -/
def lateGameProbe : PredictionData :=
  { id := "probe-date", player := "", team := "", opponent := "",
    gameTime := msOfUTC 2025 3 21 23 30 0, sport := "", stat := "", line := 0,
    predictedValue := 0, overProbability := 0, confidence := 0,
    confidenceCategory := "", keyFactors := [] }

theorem c10_date_filter_utc_witness :
    (0 * 3600 + 0 * 60 + 0) * 1000 < 86400000 ∧
    (23 * 3600 + 30 * 60 + 0) * 1000 < 86400000 ∧
    (matchesAll { date := some (msOfUTC 2025 3 21 0 0 0) } lateGameProbe = true
      ↔ daysFromCivil 2025 3 21 = daysFromCivil 2025 3 21) ∧
    matchesAll { date := some (msOfUTC 2025 3 21 0 0 0) } lateGameProbe = true ∧
    matchesAll { date := some (msOfUTC 2025 3 22 0 0 0) } lateGameProbe = false :=
  ⟨by decide, by decide,
    c10_date_filter_utc lateGameProbe 2025 3 21 0 0 0 2025 3 21 23 30 0
      (by decide) (by decide) rfl,
    by decide, by decide⟩
